import Mathlib

/-!
Shallow embedding of `src/people.js` (MixpanelPeople, the client-side
profile-mutation dispatcher) and verification of the frozen claims.

Modelling conventions:
* JS values are the inductive `Value`; numbers are integers (no floating
  point in any claim), objects are insertion-ordered association lists.
* External collaborators (the persistence store, the transport, the console
  error channel, caller-supplied callbacks) are modelled as an event log:
  each operation returns the events it emits, in order.
* The transport is asynchronous: per the design, issuing a request never
  blocks and the outcome arrives via the continuation only after the
  synchronous call has returned.  A dispatch therefore returns a `pending`
  continuation which is fired later, with the transport's result, by
  `fireAll`.  Synchronous continuation invocations (the deferred result for
  queued mutations) appear directly in the event list.
* Callbacks are defunctionalised (`Cb`): caller-supplied callbacks are
  opaque ids, while the two closures created by the flush code are explicit
  constructors interpreted by `invokeCb`, mirroring the closures' bodies.
-/

namespace MixpanelPeople

/-- JS values as used by this module: numbers (modelled as integers;
no claim depends on fractional or NaN arithmetic), strings, arrays,
plain objects (insertion-ordered association lists), and `undefined`. -/
inductive Value where
  | num : Int → Value
  | str : String → Value
  | list : List Value → Value
  | obj : List (String × Value) → Value
  | undef : Value

/-- A JS plain object: insertion-ordered association list. -/
abbrev Obj := List (String × Value)

/-- `_.isArray` check. -/
def Value.isArr : Value → Bool
  | .list _ => true
  | _ => false

/-- `_.isNumber` check (`typeof x === 'number'`-style tag test). -/
def Value.isNum : Value → Bool
  | .num _ => true
  | _ => false

/-- `undefined` test. -/
def Value.isUndef : Value → Bool
  | .undef => true
  | _ => false

/-- Key-membership test on a JS object. -/
def hasKey (o : Obj) (k : String) : Bool :=
  o.any (fun p => p.1 == k)

/-- Lookup on a JS object (last write wins is irrelevant: `setKey` keeps
keys unique by overwriting in place). -/
def getKey (o : Obj) (k : String) : Option Value :=
  (o.find? (fun p => p.1 == k)).map Prod.snd

/-- JS property assignment `o[k] = v`: overwrite in place if the key is
present, otherwise append (insertion order preserved). -/
def setKey (o : Obj) (k : String) (v : Value) : Obj :=
  if hasKey o k then o.map (fun p => if p.1 == k then (k, v) else p)
  else o ++ [(k, v)]

/-- One step of `_.extend`: copy a source key into the target unless the
source value is `undefined`. -/
def extendStep (acc : Obj) (kv : String × Value) : Obj :=
  if kv.2.isUndef then acc else setKey acc kv.1 kv.2

/-- Modelled from the spec: `_.extend(base, src)` (utils are an external
collaborator) — copies every key of `src` whose value is not `undefined`
into `base`, in iteration order, overwriting existing keys. -/
def extendObj (base src : Obj) : Obj :=
  src.foldl extendStep base

/-! ### Action kinds

The action-key constants are imported by `people.js` from `actions.js`
(a sibling module of this repository outside the provided source tree);
they are the engage API keys named SET/SET_ONCE/UNSET/ADD/APPEND/UNION by
the design document.  No claim depends on their exact spelling. -/

def SET_ACTION : String := "$set"

def SET_ONCE_ACTION : String := "$set_once"

def UNSET_ACTION : String := "$unset"

def ADD_ACTION : String := "$add"

def APPEND_ACTION : String := "$append"

def UNION_ACTION : String := "$union"

/-- `_is_reserved_property` from the source: the fixed deny-list. -/
def _is_reserved_property (prop : String) : Bool :=
  prop == "$distinct_id" || prop == "$token"

/-- JS `String.prototype.slice(0, n)`: the first `n` units of a string
(defined on the character list so that concrete instances reduce). -/
def strTake (s : String) (n : Nat) : String := ⟨s.data.take n⟩

/-! ### External codecs (spec-modelled)

`_.encodeDates`, `_.truncate`, `_.JSONEncode`, `_.base64Encode` live in
`utils.js`, an external collaborator ("JSON/base64/date encoding codecs"
are explicitly out of scope, interface only).  The transport event below
records the structured payload handed to the codec chain; the injective
JSON/base64 steps are therefore not reproduced. -/

/-- Modelled from the spec: date encoding is an external codec; the model
has no date values, on which the recursive date-to-string conversion is
the identity. -/
def encodeDates (o : Obj) : Obj := o

mutual

/-- Modelled from the spec: the byte-size truncation policy — clip each
string value to at most `n` units, recursing through sequences and maps;
it never throws. -/
def truncateV (n : Nat) : Value → Value
  | .str s => .str (strTake s n)
  | .list l => .list (truncateL n l)
  | .obj m => .obj (truncateO n m)
  | v => v

def truncateL (n : Nat) : List Value → List Value
  | [] => []
  | v :: vs => truncateV n v :: truncateL n vs

def truncateO (n : Nat) : List (String × Value) → List (String × Value)
  | [] => []
  | p :: ps => (p.1, truncateV n p.2) :: truncateO n ps

end

/-- `_.truncate(obj, length)` at the top level: the dispatched payload is
always a JS object. -/
def truncate (o : Obj) (n : Nat) : Obj := truncateO n o

/-! ### Numeric parsing (spec-modelled) -/

/-- Digits-prefix parser: `none` when the first character is no digit. -/
def digitsPrefix : List Char → Option Nat
  | [] => none
  | c :: cs =>
    if c.isDigit then
      some ((c :: cs).takeWhile Char.isDigit |>.foldl
        (fun acc d => 10 * acc + (d.toNat - 48)) 0)
    else none

/-- Modelled from the spec: the best-effort numeric parse
(`parseFloat` + `isNaN` in the source, a JS builtin): a number parses to
itself; a string parses via an optional sign followed by a digits prefix
(the model's numbers are integers, so the fractional part is not
modelled); every other value fails (NaN). -/
def parseFloatV : Value → Option Int
  | .num n => some n
  | .str s =>
    match s.toList with
    | '-' :: cs => (digitsPrefix cs).map (fun n => -(n : Int))
    | '+' :: cs => (digitsPrefix cs).map (fun n => (n : Int))
    | cs => (digitsPrefix cs).map (fun n => (n : Int))
  | _ => none

/-! ### Effects, callbacks, environment -/

/-- A result value passed to a continuation: the plain numeric results
(`1` success, `0` network failure, `-1` deferred) or the verbose-mode
object result (modelling the literals of shape status/error). -/
inductive CbResp where
  | num (n : Int)
  | vObj (status : Int) (error : Option String)
deriving DecidableEq

/-- Defunctionalised continuations: a caller-supplied callback is an
opaque id; the two closures built by the flush code are explicit.
`flushWrapper` captures the queued payload by value (the source closure
captures the local `queued_data`, fixed per invocation); `appendWrapper`
captures no payload because the source closure reads the shared loop
variable `$append_item` at invocation time. -/
inductive Cb where
  | ext (id : Nat)
  | flushWrapper (action : String) (queued : Obj) (inner : Option Nat)
  | appendWrapper (inner : Option Nat)

/-- Observable effects on external collaborators, in order of emission. -/
inductive Event where
  | transport (payload : Obj)
  | addQ (action : String) (data : Obj)
  | popQ (action : String) (data : Obj)
  | persistSave
  | updateReferrer
  | logErr (msg : String)
  | cbCall (id : Nat) (resp : CbResp) (data : Option Obj)

/-- Interpreter for a continuation invocation.  `cell` is the value of the
shared `$append_item` loop variable at invocation time; only
`appendWrapper` reads it (and only on a failure result). -/
def invokeCb (cell : Obj) : Cb → CbResp → Option Obj → List Event
  | .ext id, r, d => [.cbCall id r d]
  | .flushWrapper action queued inner, r, d =>
    (if r = .num 0 then [.addQ action queued] else []) ++
      (match inner with
       | some id => [.cbCall id r d]
       | none => [])
  | .appendWrapper inner, r, d =>
    (if r = .num 0 then [.addQ APPEND_ACTION cell] else []) ++
      (match inner with
       | some id => [.cbCall id r d]
       | none => [])

/-- The ambient state read by the operations: configuration (`token`,
`verbose`, `save_referrer`), the identity gate (`identify_called`), the
resolved-or-default profile id (`get_distinct_id`), the external data
sources consulted by `set`, and the store's current per-kind queues as
read by `_flush`. -/
structure Env where
  token : String
  distinct_id : String
  identify_called : Bool
  verbose : Bool
  save_referrer : Bool
  people_properties : Obj
  referrer_info : Obj
  qset : Obj
  qset_once : Obj
  qunset : Obj
  qadd : Obj
  qunion : Obj
  qappend : List Obj

/-- The result of one dispatched operation: the value returned to the
caller (the truncated payload), the synchronously emitted events, and the
continuations awaiting a transport outcome (each paired with the
truncated payload the callback-preparation path passes along). -/
structure DispatchResult where
  ret : Obj
  events : List Event
  pending : List (Cb × Obj)

/-! ### Dispatcher -/

/-- The `$token` / `$distinct_id` assignments performed by `_send_request`
before anything else. -/
def withIds (env : Env) (data : Obj) : Obj :=
  setKey (setKey data "$token" (.str env.token)) "$distinct_id"
    (.str env.distinct_id)

/-- The deferred sentinel handed to a callback for a queued mutation:
`callback(-1)`, or the status `-1` / error `null` object in verbose mode. -/
def deferredResp (env : Env) : CbResp :=
  if env.verbose then .vObj (-1) none else .num (-1)

/-- `_enqueue`: hand the composed request to the store's queue for the
action kind found in it (the source's if/else-if chain). -/
def _enqueue (data : Obj) : List Event :=
  if hasKey data SET_ACTION then [.addQ SET_ACTION data]
  else if hasKey data SET_ONCE_ACTION then [.addQ SET_ONCE_ACTION data]
  else if hasKey data UNSET_ACTION then [.addQ UNSET_ACTION data]
  else if hasKey data ADD_ACTION then [.addQ ADD_ACTION data]
  else if hasKey data APPEND_ACTION then [.addQ APPEND_ACTION data]
  else if hasKey data UNION_ACTION then [.addQ UNION_ACTION data]
  else [.logErr "Invalid call to _enqueue()"]

/-- `_send_request(data, callback)`.  Adds `$token` and `$distinct_id`,
computes the date-encoded and truncated forms, then either enqueues with a
synchronous deferred callback invocation (identity unresolved; the
`$append_item` cell is not read there because the deferred result is never
`0`) or emits the transport call (identity resolved; the JSON/base64 codec
chain is applied to the date-encoded data, whose structured form the
transport event records) with the prepared callback left pending until the
transport outcome arrives.  Returns the truncated data in both branches. -/
def _send_request (env : Env) (data : Obj) (callback : Option Cb) :
    DispatchResult :=
  let data := withIds env data
  let date_encoded_data := encodeDates data
  let truncated_data := truncate date_encoded_data 255
  if env.identify_called = false then
    { ret := truncated_data
      events := _enqueue data ++
        (match callback with
         | some cb => invokeCb [] cb (deferredResp env) none
         | none => [])
      pending := [] }
  else
    { ret := truncated_data
      events := [.transport date_encoded_data]
      pending :=
        match callback with
        | some cb => [(cb, truncated_data)]
        | none => [] }

/-! ### Mutation encoders and public operations

The dynamic single-pair vs map argument sniffing of the source is resolved
at the boundary into a tagged argument type, as the design document's note
prescribes; the callback-shifting (`callback = to`) of the map branches is
exactly this resolution. -/

/-- Caller argument shape for `set`/`set_once`/`append`/`union`. -/
inductive PropArg where
  | map (m : Obj)
  | single (name : String) (value : Value)

/-- Caller argument shape for `unset`. -/
inductive UnsetArg where
  | single (name : String)
  | arr (names : List String)

/-- Caller argument shape for `increment` (`by` optional when single). -/
inductive IncArg where
  | map (m : Obj)
  | single (name : String) (amount : Option Value)

/-- The map-branch loop common to `set`/`set_once`/`append`: copy every
non-reserved key. -/
def filteredMap (m : Obj) : Obj :=
  m.foldl (fun acc kv =>
    if _is_reserved_property kv.1 then acc else setKey acc kv.1 kv.2) []

/-- The referrer-update side effect at the head of `set`. -/
def referrerEvents (env : Env) : List Event :=
  if env.save_referrer then [.updateReferrer] else []

/-- The `$set` payload: filtered (map) or raw single pair, then extended
over the default people properties and the stored referrer info. -/
def set_payload (env : Env) (arg : PropArg) : Obj :=
  let base :=
    match arg with
    | .map m => filteredMap m
    | .single name v => [(name, v)]
  extendObj (extendObj (extendObj [] env.people_properties)
    env.referrer_info) base

/-- `set`. -/
def set (env : Env) (arg : PropArg) (callback : Option Cb) :
    DispatchResult :=
  let r := _send_request env [(SET_ACTION, .obj (set_payload env arg))]
    callback
  { r with events := referrerEvents env ++ r.events }

/-- The `$set_once` payload. -/
def set_once_payload (arg : PropArg) : Obj :=
  match arg with
  | .map m => filteredMap m
  | .single name v => [(name, v)]

/-- `set_once`. -/
def set_once (env : Env) (arg : PropArg) (callback : Option Cb) :
    DispatchResult :=
  _send_request env [(SET_ONCE_ACTION, .obj (set_once_payload arg))]
    callback

/-- The `$unset` payload: wrap a single name, filter reserved names. -/
def unset_payload (arg : UnsetArg) : List String :=
  let props :=
    match arg with
    | .single name => [name]
    | .arr names => names
  props.filter (fun k => !_is_reserved_property k)

/-- `unset`. -/
def unset (env : Env) (arg : UnsetArg) (callback : Option Cb) :
    DispatchResult :=
  _send_request env
    [(UNSET_ACTION, .list ((unset_payload arg).map .str))] callback

/-- The validation-error message `increment` reports for a value failing
the numeric parse. -/
def incErrMsg : String :=
  "Invalid increment value passed to mixpanel.people.increment - must be a number"

/-- One step of `increment`'s map loop: skip a reserved key; report and
drop a value failing the numeric parse; otherwise keep the original
value. -/
def addStep (acc : Obj × List Event) (kv : String × Value) :
    Obj × List Event :=
  if _is_reserved_property kv.1 then acc
  else
    match parseFloatV kv.2 with
    | none => (acc.1, acc.2 ++ [.logErr incErrMsg])
    | some _ => (setKey acc.1 kv.1 kv.2, acc.2)

/-- The `$add` payload together with the validation errors reported while
building it: a non-reserved key whose value fails the numeric parse is
dropped and reported; the kept value is the original one.  A single
property name with the amount omitted defaults to `1`. -/
def add_payload (arg : IncArg) : Obj × List Event :=
  match arg with
  | .map m => m.foldl addStep ([], [])
  | .single name amount => ([(name, amount.getD (.num 1))], [])

/-- `increment`. -/
def increment (env : Env) (arg : IncArg) (callback : Option Cb) :
    DispatchResult :=
  let p := add_payload arg
  let r := _send_request env [(ADD_ACTION, .obj p.1)] callback
  { r with events := p.2 ++ r.events }

/-- The `$append` payload. -/
def append_payload (arg : PropArg) : Obj :=
  match arg with
  | .map m => filteredMap m
  | .single name v => [(name, v)]

/-- `append`. -/
def append (env : Env) (arg : PropArg) (callback : Option Cb) :
    DispatchResult :=
  _send_request env [(APPEND_ACTION, .obj (append_payload arg))] callback

/-- The union encoding `_.isArray(v) ? v : [v]`. -/
def unionEncode (v : Value) : Value :=
  if v.isArr then v else .list [v]

/-- The `$union` payload: every value union-encoded. -/
def union_payload (arg : PropArg) : Obj :=
  match arg with
  | .map m =>
    m.foldl (fun acc kv =>
      if _is_reserved_property kv.1 then acc
      else setKey acc kv.1 (unionEncode kv.2)) []
  | .single name v => [(name, unionEncode v)]

/-- `union`. -/
def union (env : Env) (arg : PropArg) (callback : Option Cb) :
    DispatchResult :=
  _send_request env [(UNION_ACTION, .obj (union_payload arg))] callback

/-! ### Derived operations -/

/-- The amount check at the head of `track_charge`: a number is used as
is; anything else goes through the best-effort numeric parse; a failed
parse is the error branch. -/
def chargeAmount (amount : Value) : Option Value :=
  if amount.isNum then some amount
  else (parseFloatV amount).map .num

/-- `track_charge(amount, properties, callback)`: on an unparseable
amount report the validation error and return `undefined` (no dispatch);
otherwise delegate to
`append('$transactions', _.extend(the amount singleton, properties))`. -/
def track_charge (env : Env) (amount : Value) (properties : Obj)
    (callback : Option Cb) :
    Option Obj × List Event × List (Cb × Obj) :=
  match chargeAmount amount with
  | none =>
    (none,
     [.logErr "Invalid value passed to mixpanel.people.track_charge - must be a number"],
     [])
  | some a =>
    let r := append env
      (.single "$transactions" (.obj (extendObj [("$amount", a)]
        properties))) callback
    (some r.ret, r.events, r.pending)

/-- `clear_charges`: `set('$transactions', [], callback)`. -/
def clear_charges (env : Env) (callback : Option Cb) : DispatchResult :=
  set env (.single "$transactions" (.list [])) callback

/-- `delete_user()`: a reported no-op before identity resolution,
otherwise one request carrying the resolved profile id under `$delete`. -/
def delete_user (env : Env) : Option Obj × List Event × List (Cb × Obj) :=
  if env.identify_called = false then
    (none,
     [.logErr "mixpanel.people.delete_user() requires you to call identify() first"],
     [])
  else
    let r := _send_request env [("$delete", .str env.distinct_id)] none
    (some r.ret, r.events, r.pending)

/-! ### Flush coordinator -/

/-- The dispatch methods handed to `_flush_one_queue` by `_flush`. -/
inductive ActionMethod where
  | mset
  | mset_once
  | munset
  | mincrement
  | mappend
  | munion
deriving DecidableEq

/-- The shape of `action_params`: the queued map itself, or the key
sequence produced by the `queue_to_params_fn` that `_flush` supplies for
UNSET. -/
inductive FlushParams where
  | asMap (o : Obj)
  | asKeys (l : List String)

/-- `action_method.call(this, action_params, wrapper)` defunctionalised.
Only the shapes `_flush` actually constructs are meaningful; the unused
combinations are inert. -/
def callMethod (env : Env) :
    ActionMethod → FlushParams → Option Cb → DispatchResult
  | .mset, .asMap o, cb => set env (.map o) cb
  | .mset_once, .asMap o, cb => set_once env (.map o) cb
  | .munset, .asKeys l, cb => unset env (.arr l) cb
  | .mincrement, .asMap o, cb => increment env (.map o) cb
  | .mappend, .asMap o, cb => append env (.map o) cb
  | .munion, .asMap o, cb => union env (.map o) cb
  | _, _, _ => ⟨[], [], []⟩

/-- Object keys, in insertion order (`_.keys`). -/
def keysOf (o : Obj) : List String := o.map Prod.fst

/-- `_flush_one_queue(action, action_method, callback,
queue_to_params_fn)`: copy the store's current queue for the kind; if
non-empty, remove it from the store, optionally transform it
(`transform = true` models passing the keys-extracting
`queue_to_params_fn`), and re-dispatch it with the wrapping continuation
that re-enqueues the untransformed copy on a failure result and forwards
every result to the per-kind callback.  `queue` is the store's current
content for `action`. -/
def _flush_one_queue (env : Env) (action : String)
    (method : ActionMethod) (callback : Option Nat) (transform : Bool)
    (queue : Obj) : List Event × List (Cb × Obj) :=
  let queued_data := extendObj [] queue
  if queued_data.isEmpty then ([], [])
  else
    let action_params : FlushParams :=
      if transform then .asKeys (keysOf queued_data)
      else .asMap queued_data
    let r := callMethod env method action_params
      (some (.flushWrapper action queued_data callback))
    (.popQ action queued_data :: r.events, r.pending)

/-- The result of `_flush`: the synchronous events, the continuations
awaiting transport outcomes (in dispatch order), and the final value of
the shared `$append_item` loop variable — the last entry popped (the
original queue head), which is what every pending `appendWrapper` will
read when it is eventually fired. -/
structure FlushResult where
  events : List Event
  pending : List (Cb × Obj)
  cell : Obj

/-- The `$append` flush loop: pop from the tail to the head, dispatching
each popped entry with the shared wrapping continuation.  Returns the
accumulated events and pendings; the caller computes the final cell. -/
def append_flush_loop (env : Env) (apcb : Option Nat) (items : List Obj) :
    List Event × List (Cb × Obj) :=
  items.foldl (fun acc item =>
    let r := append env (.map item) (some (.appendWrapper apcb))
    (acc.1 ++ r.events, acc.2 ++ r.pending)) ([], [])

/-- `_flush`: drain the five merged queues through `_flush_one_queue`
(UNSET with the keys transform), then fire off each `$append` entry
individually — popping from the tail — and persist the shortened store
once after the loop. -/
def _flush (env : Env) (scb acb apcb socb ucb unscb : Option Nat) :
    FlushResult :=
  let append_queue := env.qappend
  let r1 := _flush_one_queue env SET_ACTION .mset scb false env.qset
  let r2 := _flush_one_queue env SET_ONCE_ACTION .mset_once socb false
    env.qset_once
  let r3 := _flush_one_queue env UNSET_ACTION .munset unscb true
    env.qunset
  let r4 := _flush_one_queue env ADD_ACTION .mincrement acb false env.qadd
  let r5 := _flush_one_queue env UNION_ACTION .munion ucb false env.qunion
  let evs5 := r1.1 ++ r2.1 ++ r3.1 ++ r4.1 ++ r5.1
  let pend5 := r1.2 ++ r2.2 ++ r3.2 ++ r4.2 ++ r5.2
  if append_queue.isEmpty then
    ⟨evs5, pend5, []⟩
  else
    let items := append_queue.reverse
    let la := append_flush_loop env apcb items
    ⟨evs5 ++ la.1 ++ [.persistSave], pend5 ++ la.2, items.getLastD []⟩

/-- Fire the pending continuations with the transport results that arrive
after the synchronous code has returned, reading the shared
`$append_item` cell at its final value. -/
def fireAll (cell : Obj) (pend : List (Cb × Obj)) (resps : List CbResp) :
    List Event :=
  (pend.zip resps).foldl
    (fun acc pr => acc ++ invokeCb cell pr.1.1 pr.2 (some pr.1.2)) []

/-! ### The six mutation entry points, uniformly -/

/-- One public mutation call together with its argument. -/
inductive MutationCall where
  | cset (arg : PropArg)
  | cset_once (arg : PropArg)
  | cunset (arg : UnsetArg)
  | cincrement (arg : IncArg)
  | cappend (arg : PropArg)
  | cunion (arg : PropArg)

/-- The action kind of a mutation call. -/
def actionKindOf : MutationCall → String
  | .cset _ => SET_ACTION
  | .cset_once _ => SET_ONCE_ACTION
  | .cunset _ => UNSET_ACTION
  | .cincrement _ => ADD_ACTION
  | .cappend _ => APPEND_ACTION
  | .cunion _ => UNION_ACTION

/-- Run one public mutation call. -/
def runMutation (env : Env) (call : MutationCall) (callback : Option Cb) :
    DispatchResult :=
  match call with
  | .cset arg => set env arg callback
  | .cset_once arg => set_once env arg callback
  | .cunset arg => unset env arg callback
  | .cincrement arg => increment env arg callback
  | .cappend arg => append env arg callback
  | .cunion arg => union env arg callback

/-! ### Event observations -/

/-- Transport payloads among a list of events, in order. -/
def transports (evs : List Event) : List Obj :=
  evs.filterMap (fun e =>
    match e with
    | .transport p => some p
    | _ => none)

/-- Store-enqueue calls among a list of events, in order. -/
def addQs (evs : List Event) : List (String × Obj) :=
  evs.filterMap (fun e =>
    match e with
    | .addQ a d => some (a, d)
    | _ => none)

/-- Callback invocations among a list of events, in order. -/
def cbCalls (evs : List Event) : List (Nat × CbResp × Option Obj) :=
  evs.filterMap (fun e =>
    match e with
    | .cbCall i r d => some (i, r, d)
    | _ => none)

/-- Validation errors (`console.error`) among a list of events. -/
def errCount (evs : List Event) : Nat :=
  (evs.filter (fun e =>
    match e with
    | .logErr _ => true
    | _ => false)).length

/-- `persistence.save()` calls among a list of events. -/
def persistCount (evs : List Event) : Nat :=
  (evs.filter (fun e =>
    match e with
    | .persistSave => true
    | _ => false)).length

/-! ### Remaining definitions used by the claim statements -/

/-- The five `(action, method, transform)` triples `_flush` hands to
`_flush_one_queue` (the UNSET one with the keys-extracting transform). -/
def flushOneSpecs : List (String × ActionMethod × Bool) :=
  [(SET_ACTION, .mset, false), (SET_ONCE_ACTION, .mset_once, false),
   (UNSET_ACTION, .munset, true), (ADD_ACTION, .mincrement, false),
   (UNION_ACTION, .munion, false)]

/-- An entry `increment`'s map branch keeps: non-reserved key, value
passing the best-effort numeric parse. -/
def incKeeps (kv : String × Value) : Bool :=
  !_is_reserved_property kv.1 && (parseFloatV kv.2).isSome

/-- An entry `increment`'s map branch drops with one validation error:
non-reserved key, value failing the numeric parse. -/
def incDrops (kv : String × Value) : Bool :=
  !_is_reserved_property kv.1 && !(parseFloatV kv.2).isSome

/-! ### Concrete instances for witnesses and counterexamples -/

/-- A pre-resolution environment (identity gate closed). -/
def env0 : Env :=
  ⟨"TOK", "DID", false, false, false, [], [], [], [], [], [], [], []⟩

/-- A post-resolution environment (identity gate open). -/
def envR : Env := { env0 with identify_called := true }

/-- A 300-unit string value, exceeding the 255-unit truncation cap. -/
def longStr : String := String.mk (List.replicate 300 'a')

/-- The wire request `set('bio', longStr)` composes in `envR`. -/
def wireC : Obj :=
  [(SET_ACTION, .obj [("bio", .str longStr)]),
   ("$token", .str "TOK"), ("$distinct_id", .str "DID")]

/-- First-queued `$append` entry of the flush scenario. -/
def qA : Obj := [("log", .str "a")]

/-- Second-queued `$append` entry of the flush scenario. -/
def qB : Obj := [("log", .str "b")]

/-- Post-resolution environment whose `$append` queue holds `qA` then
`qB`. -/
def envFl : Env := { envR with qappend := [qA, qB] }

/-! ### Association-list lemmas -/

theorem hasKey_nil (k : String) : hasKey [] k = false := rfl

theorem hasKey_cons (p : String × Value) (o : Obj) (k : String) :
    hasKey (p :: o) k = ((p.1 == k) || hasKey o k) := rfl

theorem hasKey_append (a b : Obj) (k : String) :
    hasKey (a ++ b) k = (hasKey a k || hasKey b k) := by
  simp [hasKey, List.any_append]

theorem setKey_not_has (o : Obj) (k : String) (v : Value)
    (h : hasKey o k = false) : setKey o k v = o ++ [(k, v)] := by
  simp [setKey, h]

/-- A clean object (no `undefined` values, no duplicate keys) extended
onto a target disjoint from it is appended verbatim. -/
theorem foldl_extendStep_fresh (q : Obj) :
    ∀ acc : Obj, (∀ kv ∈ q, hasKey acc kv.1 = false) →
    (keysOf q).Nodup → (∀ kv ∈ q, kv.2.isUndef = false) →
    q.foldl extendStep acc = acc ++ q := by
  induction q with
  | nil => intro acc _ _ _; simp
  | cons kv tl ih =>
    intro acc hfresh hnd hclean
    have hkv : extendStep acc kv = acc ++ [kv] := by
      rw [extendStep, hclean kv (by simp), setKey_not_has _ _ _
        (hfresh kv (by simp))]
      simp
    have hnd2 : kv.1 ∉ List.map Prod.fst tl ∧ (List.map Prod.fst tl).Nodup := by
      simpa [keysOf, List.nodup_cons] using hnd
    have hnd' : (keysOf tl).Nodup := hnd2.2
    have hmem : kv.1 ∉ keysOf tl := hnd2.1
    have hfresh' : ∀ kv' ∈ tl, hasKey (acc ++ [kv]) kv'.1 = false := by
      intro kv' hkv'
      rw [hasKey_append, hfresh kv' (by simp [hkv'])]
      have : kv.1 ≠ kv'.1 := by
        intro hEq
        exact hmem (hEq ▸ List.mem_map_of_mem Prod.fst hkv')
      simp [hasKey, this]
    calc (kv :: tl).foldl extendStep acc
        = tl.foldl extendStep (extendStep acc kv) := by simp
      _ = tl.foldl extendStep (acc ++ [kv]) := by rw [hkv]
      _ = (acc ++ [kv]) ++ tl := ih (acc ++ [kv]) hfresh' hnd'
          (fun kv' h => hclean kv' (by simp [h]))
      _ = acc ++ kv :: tl := by simp

/-- `_.extend(\x7b\x7d, queue)` is the identity on a clean queue. -/
theorem extendObj_nil_clean (q : Obj) (hnd : (keysOf q).Nodup)
    (hclean : ∀ kv ∈ q, kv.2.isUndef = false) :
    extendObj [] q = q := by
  simpa using foldl_extendStep_fresh q [] (fun _ _ => rfl) hnd hclean

/-! ### Reserved-key invariants -/

/-- No reserved key occurs in the object. -/
def noReserved (o : Obj) : Bool :=
  o.all (fun p => !_is_reserved_property p.1)

theorem noReserved_setKey (o : Obj) (k : String) (v : Value)
    (ho : noReserved o = true) (hk : _is_reserved_property k = false) :
    noReserved (setKey o k v) = true := by
  rw [setKey]
  by_cases h : hasKey o k = true
  · simp only [h, if_true, noReserved, List.all_map, List.all_eq_true]
    intro p hp
    by_cases hpk : (p.1 == k) = true
    · simp [Function.comp, hpk, hk]
    · simp only [Function.comp, hpk, Bool.false_eq_true, if_false]
      exact (List.all_eq_true.mp ho) p hp
  · simp only [h, if_false, noReserved, List.all_append, List.all_cons]
    simp only [noReserved] at ho
    simp [ho, hk]

/-- The map-branch loop only ever copies non-reserved keys. -/
theorem noReserved_filteredMap (m : Obj) : noReserved (filteredMap m) = true := by
  rw [filteredMap]
  suffices h : ∀ acc : Obj, noReserved acc = true →
      noReserved (m.foldl (fun acc kv =>
        if _is_reserved_property kv.1 then acc
        else setKey acc kv.1 kv.2) acc) = true by
    exact h [] rfl
  induction m with
  | nil => intro acc hacc; simpa using hacc
  | cons kv tl ih =>
    intro acc hacc
    simp only [List.foldl_cons]
    by_cases hres : _is_reserved_property kv.1 = true
    · simpa [hres] using ih acc hacc
    · have hres' : _is_reserved_property kv.1 = false := by
        simpa using hres
      simpa [hres'] using ih (setKey acc kv.1 kv.2)
        (noReserved_setKey acc kv.1 kv.2 hacc hres')

/-- `_.extend` preserves the reserved-key-free invariant. -/
theorem noReserved_extendObj (base src : Obj)
    (hb : noReserved base = true) (hs : noReserved src = true) :
    noReserved (extendObj base src) = true := by
  rw [extendObj]
  induction src generalizing base with
  | nil => simpa using hb
  | cons kv tl ih =>
    simp only [noReserved, List.all_cons, Bool.and_eq_true] at hs
    simp only [List.foldl_cons]
    refine ih (extendStep base kv) ?_ hs.2
    rw [extendStep]
    by_cases hu : kv.2.isUndef = true
    · simpa [hu] using hb
    · simp only [hu, Bool.false_eq_true, if_false]
      exact noReserved_setKey base kv.1 kv.2 hb (by simpa using hs.1)

/-! ### Characterising one dispatched mutation -/

/-- The action payload a mutation call composes (the value stored under
its action-kind key). -/
def mutationPayload (env : Env) : MutationCall → Value
  | .cset arg => .obj (set_payload env arg)
  | .cset_once arg => .obj (set_once_payload arg)
  | .cunset arg => .list ((unset_payload arg).map .str)
  | .cincrement arg => .obj (add_payload arg).1
  | .cappend arg => .obj (append_payload arg)
  | .cunion arg => .obj (union_payload arg)

/-- The events a mutation call emits while composing its payload, before
`_send_request` runs. -/
def buildEvents (env : Env) : MutationCall → List Event
  | .cset _ => referrerEvents env
  | .cincrement arg => (add_payload arg).2
  | _ => []

/-- The composed wire request of a mutation call: the single-action-key
object with `$token` and `$distinct_id` injected by `_send_request`. -/
def composedData (env : Env) (call : MutationCall) : Obj :=
  withIds env [(actionKindOf call, mutationPayload env call)]

theorem runMutation_eq (env : Env) (call : MutationCall)
    (cb : Option Cb) :
    runMutation env call cb =
      ⟨(_send_request env
          [(actionKindOf call, mutationPayload env call)] cb).ret,
       buildEvents env call ++
         (_send_request env
           [(actionKindOf call, mutationPayload env call)] cb).events,
       (_send_request env
         [(actionKindOf call, mutationPayload env call)] cb).pending⟩ := by
  cases call <;> rfl

theorem withIds_single (env : Env) (a : String) (v : Value)
    (h1 : (a == "$token") = false) (h2 : (a == "$distinct_id") = false) :
    withIds env [(a, v)] =
      [(a, v), ("$token", .str env.token),
       ("$distinct_id", .str env.distinct_id)] := by
  simp [withIds, setKey, hasKey, h1, h2]

theorem composedData_def (env : Env) (call : MutationCall) :
    withIds env [(actionKindOf call, mutationPayload env call)] =
      composedData env call := rfl

theorem composedData_eq (env : Env) (call : MutationCall) :
    composedData env call =
      [(actionKindOf call, mutationPayload env call),
       ("$token", .str env.token),
       ("$distinct_id", .str env.distinct_id)] := by
  cases call <;>
    exact withIds_single env _ _ (by simp [actionKindOf, SET_ACTION,
      SET_ONCE_ACTION, UNSET_ACTION, ADD_ACTION, APPEND_ACTION,
      UNION_ACTION]) (by simp [actionKindOf, SET_ACTION, SET_ONCE_ACTION,
      UNSET_ACTION, ADD_ACTION, APPEND_ACTION, UNION_ACTION])

theorem enqueue_composedData (env : Env) (call : MutationCall) :
    _enqueue (composedData env call) =
      [.addQ (actionKindOf call) (composedData env call)] := by
  have h := composedData_eq env call
  cases call <;>
    simp [h, _enqueue, hasKey, actionKindOf, SET_ACTION, SET_ONCE_ACTION,
      UNSET_ACTION, ADD_ACTION, APPEND_ACTION, UNION_ACTION]

/-- Master lemma: a public mutation call against unresolved identity. -/
theorem runMutation_unresolved (env : Env) (call : MutationCall)
    (cb : Option Cb) (h : env.identify_called = false) :
    runMutation env call cb =
      ⟨truncate (composedData env call) 255,
       buildEvents env call ++
         [.addQ (actionKindOf call) (composedData env call)] ++
         (match cb with
          | some c => invokeCb [] c (deferredResp env) none
          | none => []),
       []⟩ := by
  rw [runMutation_eq]
  simp [_send_request, h, encodeDates, composedData_def,
    enqueue_composedData]

/-- Master lemma: a public mutation call against resolved identity. -/
theorem runMutation_resolved (env : Env) (call : MutationCall)
    (cb : Option Cb) (h : env.identify_called = true) :
    runMutation env call cb =
      ⟨truncate (composedData env call) 255,
       buildEvents env call ++ [.transport (composedData env call)],
       match cb with
       | some c => [(c, truncate (composedData env call) 255)]
       | none => []⟩ := by
  rw [runMutation_eq]
  simp [_send_request, h, encodeDates, composedData_def]

/-- A list of nothing but validation errors has no transport, store,
callback or persistence traffic. -/
theorem obs_of_logErr_only (l : List Event)
    (hl : ∀ e ∈ l, ∃ s, e = .logErr s) :
    transports l = [] ∧ addQs l = [] ∧ cbCalls l = [] ∧
    persistCount l = 0 := by
  refine ⟨?_, ?_, ?_, ?_⟩
  · apply List.filterMap_eq_nil_iff.mpr
    intro e he; obtain ⟨s, rfl⟩ := hl e he; rfl
  · apply List.filterMap_eq_nil_iff.mpr
    intro e he; obtain ⟨s, rfl⟩ := hl e he; rfl
  · apply List.filterMap_eq_nil_iff.mpr
    intro e he; obtain ⟨s, rfl⟩ := hl e he; rfl
  · simp only [persistCount, List.length_eq_zero, List.filter_eq_nil_iff]
    intro e he; obtain ⟨s, rfl⟩ := hl e he; simp

/-- Every event emitted while building an `$add` payload is a validation
error. -/
theorem add_payload_snd_logErr (arg : IncArg) :
    ∀ e ∈ (add_payload arg).2, ∃ s, e = Event.logErr s := by
  cases arg with
  | single n a => intro e he; simp [add_payload] at he
  | map m =>
    rw [add_payload]
    suffices hgen : ∀ acc : Obj, ∀ errs : List Event,
        (∀ e ∈ errs, ∃ s, e = Event.logErr s) →
        ∀ e ∈ (m.foldl addStep (acc, errs)).2,
        ∃ s, e = Event.logErr s by
      intro e he
      exact hgen [] [] (by simp) e he
    induction m with
    | nil => intro acc errs herrs e he; exact herrs e he
    | cons kv tl ih =>
      intro acc errs herrs e he
      simp only [List.foldl_cons] at he
      by_cases hres : _is_reserved_property kv.1 = true
      · rw [show addStep (acc, errs) kv = (acc, errs) from by
          simp [addStep, hres]] at he
        exact ih acc errs herrs e he
      · cases hp : parseFloatV kv.2 with
        | none =>
          rw [show addStep (acc, errs) kv =
              (acc, errs ++ [Event.logErr incErrMsg]) from by
            simp [addStep, hres, hp]] at he
          refine ih acc _ ?_ e he
          intro e' he'
          rcases List.mem_append.mp he' with h1 | h1
          · exact herrs e' h1
          · simp at h1
            exact ⟨_, h1⟩
        | some n =>
          rw [show addStep (acc, errs) kv =
              (setKey acc kv.1 kv.2, errs) from by
            simp [addStep, hres, hp]] at he
          exact ih _ errs herrs e he

/-- The payload-composition events are diagnostics only: no transport,
no store traffic, no callback invocation. -/
theorem buildEvents_pure (env : Env) (call : MutationCall) :
    transports (buildEvents env call) = [] ∧
    addQs (buildEvents env call) = [] ∧
    cbCalls (buildEvents env call) = [] ∧
    persistCount (buildEvents env call) = 0 := by
  cases call with
  | cset arg =>
    by_cases hr : env.save_referrer = true <;>
      simp [buildEvents, referrerEvents, hr, transports, addQs, cbCalls,
        persistCount]
  | cincrement arg => exact obs_of_logErr_only _ (add_payload_snd_logErr arg)
  | cset_once arg =>
    exact obs_of_logErr_only _ (by intro e he; simp [buildEvents] at he)
  | cunset arg =>
    exact obs_of_logErr_only _ (by intro e he; simp [buildEvents] at he)
  | cappend arg =>
    exact obs_of_logErr_only _ (by intro e he; simp [buildEvents] at he)
  | cunion arg =>
    exact obs_of_logErr_only _ (by intro e he; simp [buildEvents] at he)

theorem transports_append (a b : List Event) :
    transports (a ++ b) = transports a ++ transports b := by
  simp [transports]

theorem addQs_append (a b : List Event) :
    addQs (a ++ b) = addQs a ++ addQs b := by
  simp [addQs]

theorem cbCalls_append (a b : List Event) :
    cbCalls (a ++ b) = cbCalls a ++ cbCalls b := by
  simp [cbCalls]

theorem errCount_append (a b : List Event) :
    errCount (a ++ b) = errCount a + errCount b := by
  simp [errCount]

theorem persistCount_append (a b : List Event) :
    persistCount (a ++ b) = persistCount a + persistCount b := by
  simp [persistCount]

theorem transports_cons (e : Event) (l : List Event) :
    transports (e :: l) =
      (match e with | .transport p => [p] | _ => []) ++ transports l := by
  cases e <;> simp [transports]

theorem addQs_cons (e : Event) (l : List Event) :
    addQs (e :: l) =
      (match e with | .addQ a d => [(a, d)] | _ => []) ++ addQs l := by
  cases e <;> simp [addQs]

theorem cbCalls_cons (e : Event) (l : List Event) :
    cbCalls (e :: l) =
      (match e with | .cbCall i r d => [(i, r, d)] | _ => []) ++
        cbCalls l := by
  cases e <;> simp [cbCalls]

theorem errCount_cons (e : Event) (l : List Event) :
    errCount (e :: l) =
      (match e with | .logErr _ => 1 | _ => 0) + errCount l := by
  cases e <;> simp [errCount, Nat.add_comm]

theorem set_as_run (env : Env) (arg : PropArg) (cb : Option Cb) :
    set env arg cb = runMutation env (.cset arg) cb := rfl

theorem set_once_as_run (env : Env) (arg : PropArg) (cb : Option Cb) :
    set_once env arg cb = runMutation env (.cset_once arg) cb := rfl

theorem unset_as_run (env : Env) (arg : UnsetArg) (cb : Option Cb) :
    unset env arg cb = runMutation env (.cunset arg) cb := rfl

theorem increment_as_run (env : Env) (arg : IncArg) (cb : Option Cb) :
    increment env arg cb = runMutation env (.cincrement arg) cb := rfl

theorem append_as_run (env : Env) (arg : PropArg) (cb : Option Cb) :
    append env arg cb = runMutation env (.cappend arg) cb := rfl

theorem union_as_run (env : Env) (arg : PropArg) (cb : Option Cb) :
    union env arg cb = runMutation env (.cunion arg) cb := rfl

/-- The deferred sentinel is never the network-failure result, so a
synchronous deferred invocation never triggers a wrapper re-enqueue. -/
theorem deferredResp_ne_fail (env : Env) :
    ¬(deferredResp env = CbResp.num 0) := by
  cases hv : env.verbose <;> simp [deferredResp, hv]

/-- Characterisation of `increment`'s map loop on a duplicate-free map:
kept entries are exactly the non-reserved parseable ones, in order and
with their original values; one validation error is emitted per
non-reserved unparseable entry. -/
theorem addStep_go (m : Obj) :
    ∀ (acc : Obj) (errs : List Event),
    (∀ kv ∈ m, hasKey acc kv.1 = false) → (keysOf m).Nodup →
    m.foldl addStep (acc, errs) =
      (acc ++ m.filter incKeeps,
       errs ++ (m.filter incDrops).map (fun _ => Event.logErr incErrMsg)) := by
  induction m with
  | nil => intro acc errs _ _; simp
  | cons kv tl ih =>
    intro acc errs hfresh hnd
    have hnd2 : kv.1 ∉ List.map Prod.fst tl ∧
        (List.map Prod.fst tl).Nodup := by
      simpa [keysOf, List.nodup_cons] using hnd
    simp only [List.foldl_cons]
    by_cases hres : _is_reserved_property kv.1 = true
    · have hk : incKeeps kv = false := by simp [incKeeps, hres]
      have hd : incDrops kv = false := by simp [incDrops, hres]
      rw [show addStep (acc, errs) kv = (acc, errs) from by
        simp [addStep, hres]]
      rw [ih acc errs (fun kv' h => hfresh kv' (List.mem_cons_of_mem _ h))
        hnd2.2]
      simp [List.filter_cons, hk, hd]
    · cases hp : parseFloatV kv.2 with
      | none =>
        have hk : incKeeps kv = false := by simp [incKeeps, hp]
        have hd : incDrops kv = true := by simp [incDrops, hres, hp]
        rw [show addStep (acc, errs) kv =
            (acc, errs ++ [Event.logErr incErrMsg]) from by
          simp [addStep, hres, hp]]
        rw [ih acc (errs ++ [Event.logErr incErrMsg])
          (fun kv' h => hfresh kv' (List.mem_cons_of_mem _ h)) hnd2.2]
        simp [List.filter_cons, hk, hd]
      | some n =>
        have hk : incKeeps kv = true := by simp [incKeeps, hres, hp]
        have hd : incDrops kv = false := by simp [incDrops, hp]
        rw [show addStep (acc, errs) kv = (setKey acc kv.1 kv.2, errs)
          from by simp [addStep, hres, hp]]
        rw [setKey_not_has acc kv.1 kv.2 (hfresh kv (by simp))]
        have hfresh' : ∀ kv' ∈ tl, hasKey (acc ++ [(kv.1, kv.2)]) kv'.1
            = false := by
          intro kv' hkv'
          rw [hasKey_append, hfresh kv' (List.mem_cons_of_mem _ hkv')]
          have hne : kv.1 ≠ kv'.1 := by
            intro hEq
            exact hnd2.1 (hEq ▸ List.mem_map_of_mem Prod.fst hkv')
          simp [hasKey, hne]
        rw [ih (acc ++ [(kv.1, kv.2)]) errs hfresh' hnd2.2]
        simp [List.filter_cons, hk, hd]

/-- The kept `$add` entries of a duplicate-free map are its non-reserved
parseable entries. -/
theorem add_payload_map_eq (m : Obj) (hnd : (keysOf m).Nodup) :
    add_payload (.map m) =
      (m.filter incKeeps,
       (m.filter incDrops).map (fun _ => Event.logErr incErrMsg)) := by
  rw [add_payload]
  rw [addStep_go m [] [] (fun kv _ => rfl) hnd]
  simp

/-- A replicated validation error counts its own multiplicity. -/
theorem errCount_replicate (n : Nat) (s : String) :
    errCount (List.replicate n (Event.logErr s)) = n := by
  induction n with
  | zero => rfl
  | succ k ih =>
    rw [List.replicate_succ, errCount_cons, ih]
    exact Nat.add_comm 1 k

/-- A list of identical validation errors counts its own length. -/
theorem errCount_logErr_map {α : Type} (l : List α) (s : String) :
    errCount (l.map (fun _ => Event.logErr s)) = l.length := by
  induction l with
  | nil => rfl
  | cons a tl ih =>
    rw [List.map_cons, errCount_cons, ih]
    simp [Nat.add_comm]

/-- The `$add` payload of a map argument never contains a reserved key. -/
theorem noReserved_add_payload (m : Obj) :
    noReserved ((add_payload (.map m)).1) = true := by
  rw [add_payload]
  suffices h : ∀ (acc : Obj) (errs : List Event), noReserved acc = true →
      noReserved ((m.foldl addStep (acc, errs)).1) = true from
    h [] [] rfl
  induction m with
  | nil => intro acc errs hacc; simpa using hacc
  | cons kv tl ih =>
    intro acc errs hacc
    simp only [List.foldl_cons]
    by_cases hres : _is_reserved_property kv.1 = true
    · rw [show addStep (acc, errs) kv = (acc, errs) from by
        simp [addStep, hres]]
      exact ih acc errs hacc
    · cases hp : parseFloatV kv.2 with
      | none =>
        rw [show addStep (acc, errs) kv =
            (acc, errs ++ [Event.logErr incErrMsg]) from by
          simp [addStep, hres, hp]]
        exact ih acc _ hacc
      | some n =>
        rw [show addStep (acc, errs) kv = (setKey acc kv.1 kv.2, errs)
          from by simp [addStep, hres, hp]]
        exact ih _ errs
          (noReserved_setKey acc kv.1 kv.2 hacc (by simpa using hres))

/-- The `$union` payload of a map argument never contains a reserved
key. -/
theorem noReserved_union_payload (m : Obj) :
    noReserved (union_payload (.map m)) = true := by
  rw [union_payload]
  suffices h : ∀ acc : Obj, noReserved acc = true →
      noReserved (m.foldl (fun acc kv =>
        if _is_reserved_property kv.1 then acc
        else setKey acc kv.1 (unionEncode kv.2)) acc) = true from
    h [] rfl
  induction m with
  | nil => intro acc hacc; simpa using hacc
  | cons kv tl ih =>
    intro acc hacc
    simp only [List.foldl_cons]
    by_cases hres : _is_reserved_property kv.1 = true
    · simpa [hres] using ih acc hacc
    · have hres' : _is_reserved_property kv.1 = false := by simpa using hres
      simpa [hres'] using ih (setKey acc kv.1 (unionEncode kv.2))
        (noReserved_setKey acc kv.1 (unionEncode kv.2) hacc hres')

/-- Reduction of `_flush_one_queue` on a clean non-empty queue: pop the
copy, dispatch it through the action method with the wrapping
continuation. -/
theorem flush_one_queue_dispatch (env : Env) (a : String)
    (mth : ActionMethod) (cbk : Option Nat) (tr : Bool) (queue : Obj)
    (hq : extendObj [] queue = queue) (hne : queue.isEmpty = false) :
    _flush_one_queue env a mth cbk tr queue =
      (Event.popQ a queue ::
        (callMethod env mth
          (if tr then .asKeys (keysOf queue) else .asMap queue)
          (some (.flushWrapper a queue cbk))).events,
       (callMethod env mth
         (if tr then .asKeys (keysOf queue) else .asMap queue)
         (some (.flushWrapper a queue cbk))).pending) := by
  simp only [_flush_one_queue, hq, hne, Bool.false_eq_true, if_false]

/-- Firing the wrapping continuation: a failure result re-enqueues the
captured queued copy, any result is forwarded to the per-kind callback
when present. -/
theorem flush_wrapper_fired (a : String) (queue : Obj)
    (inner : Option Nat) (t : Obj) (resp : CbResp) :
    addQs (fireAll [] [(Cb.flushWrapper a queue inner, t)] [resp]) =
      (if resp = CbResp.num 0 then [(a, queue)] else []) ∧
    cbCalls (fireAll [] [(Cb.flushWrapper a queue inner, t)] [resp]) =
      (match inner with
       | some i => [(i, resp, some t)]
       | none => []) := by
  constructor <;>
  · by_cases hresp : resp = CbResp.num 0 <;> cases inner <;>
      simp [fireAll, invokeCb, hresp, addQs_append, addQs_cons,
        cbCalls_append, cbCalls_cons, addQs, cbCalls]

/-- Dispatch side of one flushed non-APPEND queue against resolved
identity: the pending continuation is the wrapper capturing the queued
copy paired with the truncated composed request, and nothing is enqueued
synchronously. -/
theorem flush_one_resolved (env : Env) (a : String)
    (mth : ActionMethod) (inner : Option Nat) (tr : Bool) (queue : Obj)
    (call : MutationCall)
    (hid : env.identify_called = true)
    (hq : extendObj [] queue = queue) (hne : queue.isEmpty = false)
    (hcm : callMethod env mth
      (if tr then .asKeys (keysOf queue) else .asMap queue)
      (some (.flushWrapper a queue inner)) =
      runMutation env call (some (.flushWrapper a queue inner))) :
    (_flush_one_queue env a mth inner tr queue).2 =
      [(Cb.flushWrapper a queue inner,
        truncate (composedData env call) 255)] ∧
    addQs (_flush_one_queue env a mth inner tr queue).1 = [] := by
  rw [flush_one_queue_dispatch env a mth inner tr queue hq hne, hcm,
    runMutation_resolved env call _ hid]
  obtain ⟨ht, ha, hc, hp⟩ := buildEvents_pure env call
  have a1 : addQs [Event.transport (composedData env call)] = [] := rfl
  exact ⟨rfl, by simp [addQs_cons, addQs_append, ha, a1]⟩

/-! ### Claims -/

/-- C1: every mutation call (set, set_once, unset, increment, append,
union) made while identity is unresolved makes no transport call, hands
the composed request to the Pending Mutation Store keyed by its action
kind, synchronously invokes the supplied callback with the deferred
sentinel — distinct from both the success result (`1`) and the
network-failure result (`0`) — and returns the truncated payload. -/
theorem claim_C1 (env : Env) (call : MutationCall) (cbid : Nat)
    (h : env.identify_called = false) :
    transports (runMutation env call (some (.ext cbid))).events = [] ∧
    addQs (runMutation env call (some (.ext cbid))).events =
      [(actionKindOf call, composedData env call)] ∧
    hasKey (composedData env call) (actionKindOf call) = true ∧
    cbCalls (runMutation env call (some (.ext cbid))).events =
      [(cbid, deferredResp env, none)] ∧
    deferredResp env ≠ .num 1 ∧ deferredResp env ≠ .num 0 ∧
    (runMutation env call (some (.ext cbid))).pending = [] ∧
    (runMutation env call (some (.ext cbid))).ret =
      truncate (composedData env call) 255 := by
  obtain ⟨ht, ha, hc, hp⟩ := buildEvents_pure env call
  have t12 : transports (Event.addQ (actionKindOf call)
      (composedData env call) ::
      invokeCb [] (Cb.ext cbid) (deferredResp env) none) = [] := rfl
  have a12 : addQs (Event.addQ (actionKindOf call)
      (composedData env call) ::
      invokeCb [] (Cb.ext cbid) (deferredResp env) none) =
      [(actionKindOf call, composedData env call)] := rfl
  have c12 : cbCalls (Event.addQ (actionKindOf call)
      (composedData env call) ::
      invokeCb [] (Cb.ext cbid) (deferredResp env) none) =
      [(cbid, deferredResp env, none)] := rfl
  simp only [runMutation_unresolved env call (some (.ext cbid)) h]
  refine ⟨?_, ?_, ?_, ?_, ?_, ?_, trivial, trivial⟩
  · simp [transports_append, ht, t12]
  · simp [addQs_append, ha, a12]
  · simp [composedData_eq, hasKey]
  · simp [cbCalls_append, hc, c12]
  · cases hv : env.verbose <;> simp [deferredResp, hv]
  · cases hv : env.verbose <;> simp [deferredResp, hv]

/-- Witness for C1 at a concrete pre-resolution call. -/
theorem claim_C1_witness :
    env0.identify_called = false ∧
    (transports (runMutation env0 (.cset (.single "gender" (.str "m")))
        (some (.ext 5))).events = [] ∧
      addQs (runMutation env0 (.cset (.single "gender" (.str "m")))
        (some (.ext 5))).events =
        [(actionKindOf (.cset (.single "gender" (.str "m"))),
          composedData env0 (.cset (.single "gender" (.str "m"))))] ∧
      hasKey (composedData env0 (.cset (.single "gender" (.str "m"))))
        (actionKindOf (.cset (.single "gender" (.str "m")))) = true ∧
      cbCalls (runMutation env0 (.cset (.single "gender" (.str "m")))
        (some (.ext 5))).events = [(5, deferredResp env0, none)] ∧
      deferredResp env0 ≠ .num 1 ∧ deferredResp env0 ≠ .num 0 ∧
      (runMutation env0 (.cset (.single "gender" (.str "m")))
        (some (.ext 5))).pending = [] ∧
      (runMutation env0 (.cset (.single "gender" (.str "m")))
        (some (.ext 5))).ret =
        truncate (composedData env0 (.cset (.single "gender" (.str "m"))))
          255) :=
  ⟨rfl, claim_C1 env0 (.cset (.single "gender" (.str "m"))) 5 rfl⟩

/-- C9: a mutation queued while identity is unresolved is handed to the
store as the composed request object, already carrying the `$token` and
`$distinct_id` keys `_send_request` sets before the identity check. -/
theorem claim_C9 (env : Env) (call : MutationCall) (cb : Option Cb)
    (h : env.identify_called = false) :
    addQs (runMutation env call cb).events =
      [(actionKindOf call, composedData env call)] ∧
    getKey (composedData env call) "$token" = some (.str env.token) ∧
    getKey (composedData env call) "$distinct_id" =
      some (.str env.distinct_id) := by
  obtain ⟨ht, ha, hc, hp⟩ := buildEvents_pure env call
  have a1 : addQs [Event.addQ (actionKindOf call)
      (composedData env call)] =
      [(actionKindOf call, composedData env call)] := rfl
  simp only [runMutation_unresolved env call cb h]
  refine ⟨?_, ?_, ?_⟩
  · simp only [addQs_append, ha, a1]
    cases cb with
    | none => simp [addQs]
    | some c =>
      cases c with
      | ext id => simp [addQs, invokeCb]
      | flushWrapper a q inner =>
        cases inner <;>
          simp [addQs, invokeCb, if_neg (deferredResp_ne_fail env)]
      | appendWrapper inner =>
        cases inner <;>
          simp [addQs, invokeCb, if_neg (deferredResp_ne_fail env)]
  · rw [composedData_eq]
    cases call <;>
      simp [getKey, actionKindOf, SET_ACTION, SET_ONCE_ACTION,
        UNSET_ACTION, ADD_ACTION, APPEND_ACTION, UNION_ACTION]
  · rw [composedData_eq]
    cases call <;>
      simp [getKey, actionKindOf, SET_ACTION, SET_ONCE_ACTION,
        UNSET_ACTION, ADD_ACTION, APPEND_ACTION, UNION_ACTION]

/-- Witness for C9 at a concrete pre-resolution call. -/
theorem claim_C9_witness :
    env0.identify_called = false ∧
    (addQs (runMutation env0 (.cunion (.single "tags" (.str "x")))
        none).events =
      [(actionKindOf (.cunion (.single "tags" (.str "x"))),
        composedData env0 (.cunion (.single "tags" (.str "x"))))] ∧
    getKey (composedData env0 (.cunion (.single "tags" (.str "x"))))
      "$token" = some (.str env0.token) ∧
    getKey (composedData env0 (.cunion (.single "tags" (.str "x"))))
      "$distinct_id" = some (.str env0.distinct_id)) :=
  ⟨rfl, claim_C9 env0 (.cunion (.single "tags" (.str "x"))) none rfl⟩

/-- C5: `delete_user` before identity resolution reports the usage error
and performs no transport call and no enqueue (its event list is exactly
the one error report) and returns `undefined`; after resolution it emits
exactly one transport request, whose payload carries the resolved profile
identifier under the `$delete` key. -/
theorem claim_C5 (env : Env) :
    delete_user env =
      (if env.identify_called then
        (some (truncate (withIds env
           [("$delete", .str env.distinct_id)]) 255),
         [Event.transport (withIds env
           [("$delete", .str env.distinct_id)])],
         ([] : List (Cb × Obj)))
      else
        (none,
         [Event.logErr "mixpanel.people.delete_user() requires you to call identify() first"],
         ([] : List (Cb × Obj)))) ∧
    getKey (withIds env [("$delete", .str env.distinct_id)]) "$delete" =
      some (.str env.distinct_id) := by
  constructor
  · cases hid : env.identify_called <;>
      simp [delete_user, _send_request, hid, encodeDates]
  · rw [withIds_single env "$delete" (.str env.distinct_id) rfl rfl]
    simp [getKey]

/-- C8: the union encoding is idempotent, keeps a sequence unchanged,
promotes anything else to a one-element sequence, and is exactly the
encoding `union` applies to a single-pair argument's value. -/
theorem claim_C8 (v : Value) :
    unionEncode (unionEncode v) = unionEncode v ∧
    unionEncode v = (if v.isArr then v else .list [v]) ∧
    ∀ n : String, union_payload (.single n v) = [(n, unionEncode v)] := by
  refine ⟨?_, rfl, fun n => rfl⟩
  cases v <;> simp [unionEncode, Value.isArr]

set_option maxRecDepth 8000 in
/-- Counterexample to C2 as stated: with identity resolved, the payload
handed to the transport is the composed (date-encoded) request, not its
truncated form — on a 300-unit string value the two differ, so the wire
request is not "the composed payload after the byte-size truncation
policy has been applied". -/
theorem claim_C2_cex :
    transports (set envR (.single "bio" (.str longStr)) none).events =
      [wireC] ∧
    (set envR (.single "bio" (.str longStr)) none).ret =
      truncate wireC 255 ∧
    longStr.data.length = 300 ∧
    (strTake longStr 255).data.length = 255 ∧
    wireC ≠ truncate wireC 255 := by
  refine ⟨rfl, rfl, by decide, by decide, ?_⟩
  intro hEq
  have hne : longStr ≠ strTake longStr 255 := by decide
  apply hne
  have h2 := congrArg (fun o => getKey o SET_ACTION) hEq
  simpa [wireC, truncate, truncateO, truncateV, getKey,
    SET_ACTION] using h2

/-- C2 amended: with identity resolved, the wire request handed to the
transport is the composed, date-encoded payload without truncation; the
truncated payload (hard cap 255 units per value, clipping, never
throwing) is only the value returned to the caller and paired with the
pending continuation. -/
theorem claim_C2_amended (env : Env) (data : Obj) (cb : Option Cb)
    (h : env.identify_called = true) :
    (_send_request env data cb).events =
      [.transport (encodeDates (withIds env data))] ∧
    (_send_request env data cb).ret =
      truncate (encodeDates (withIds env data)) 255 ∧
    (_send_request env data cb).pending =
      (match cb with
       | some c => [(c, truncate (encodeDates (withIds env data)) 255)]
       | none => []) := by
  refine ⟨?_, ?_, ?_⟩ <;> simp [_send_request, h]

/-- Witness for the amended C2 at a concrete resolved dispatch. -/
theorem claim_C2_amended_witness :
    envR.identify_called = true ∧
    ((_send_request envR [(SET_ACTION, .obj [("bio", .str longStr)])]
        none).events =
      [.transport (encodeDates (withIds envR
        [(SET_ACTION, .obj [("bio", .str longStr)])]))] ∧
    (_send_request envR [(SET_ACTION, .obj [("bio", .str longStr)])]
        none).ret =
      truncate (encodeDates (withIds envR
        [(SET_ACTION, .obj [("bio", .str longStr)])])) 255 ∧
    (_send_request envR [(SET_ACTION, .obj [("bio", .str longStr)])]
        none).pending =
      (match (none : Option Cb) with
       | some c => [(c, truncate (encodeDates (withIds envR
           [(SET_ACTION, .obj [("bio", .str longStr)])])) 255)]
       | none => [])) :=
  ⟨rfl, claim_C2_amended envR [(SET_ACTION, .obj [("bio", .str longStr)])]
    none rfl⟩

/-- Counterexample to C6 as stated: a reserved name passed in the
single-pair (scalar) argument shape is not name-checked — `set` composes
a `$set` payload that does contain the reserved `$token` key. -/
theorem claim_C6_cex :
    _is_reserved_property "$token" = true ∧
    hasKey (set_payload env0 (.single "$token" (.str "x"))) "$token" =
      true ∧
    noReserved (set_payload env0 (.single "$token" (.str "x"))) =
      false := by
  exact ⟨rfl, rfl, rfl⟩

/-- C6 amended: for map-shaped input every key is filtered by the
reserved-property check in all six operations (for `set` provided the
externally supplied default people properties and referrer info are
themselves reserved-free), and `unset` filters names in both argument
shapes; the scalar shape of the other five operations is not
name-checked. -/
theorem claim_C6_amended (env : Env) (m : Obj) (arg : UnsetArg)
    (hp : noReserved env.people_properties = true)
    (hr : noReserved env.referrer_info = true) :
    noReserved (set_payload env (.map m)) = true ∧
    noReserved (set_once_payload (.map m)) = true ∧
    noReserved ((add_payload (.map m)).1) = true ∧
    noReserved (append_payload (.map m)) = true ∧
    noReserved (union_payload (.map m)) = true ∧
    (unset_payload arg).all (fun k => !_is_reserved_property k) =
      true := by
  refine ⟨?_, noReserved_filteredMap m, noReserved_add_payload m,
    noReserved_filteredMap m, noReserved_union_payload m, ?_⟩
  · rw [set_payload]
    exact noReserved_extendObj _ _
      (noReserved_extendObj _ _
        (noReserved_extendObj _ _ rfl hp) hr)
      (noReserved_filteredMap m)
  · cases arg with
    | single name =>
      simp only [unset_payload, List.all_eq_true]
      intro k hk
      exact (List.mem_filter.mp hk).2
    | arr names =>
      simp only [unset_payload, List.all_eq_true]
      intro k hk
      exact (List.mem_filter.mp hk).2

/-- Witness for the amended C6 at concrete inputs. -/
theorem claim_C6_amended_witness :
    noReserved env0.people_properties = true ∧
    noReserved env0.referrer_info = true ∧
    (noReserved (set_payload env0 (.map [("a", .num 1),
        ("$token", .num 2)])) = true ∧
    noReserved (set_once_payload (.map [("a", .num 1),
        ("$token", .num 2)])) = true ∧
    noReserved ((add_payload (.map [("a", .num 1),
        ("$token", .num 2)])).1) = true ∧
    noReserved (append_payload (.map [("a", .num 1),
        ("$token", .num 2)])) = true ∧
    noReserved (union_payload (.map [("a", .num 1),
        ("$token", .num 2)])) = true ∧
    (unset_payload (.arr ["gender", "$distinct_id"])).all
      (fun k => !_is_reserved_property k) = true) :=
  ⟨rfl, rfl, claim_C6_amended env0 [("a", .num 1), ("$token", .num 2)]
    (.arr ["gender", "$distinct_id"]) rfl rfl⟩

/-- Counterexample to C7 as stated: the single-pair (scalar) shape of
`increment` is not validated at all — `increment('credits', 'oops')`
keeps the unparseable value in the `$add` payload and reports zero
validation errors, so not every value failing the numeric parse is
dropped and reported. -/
theorem claim_C7_cex :
    parseFloatV (.str "oops") = none ∧
    add_payload (.single "credits" (some (.str "oops"))) =
      ([("credits", Value.str "oops")], []) ∧
    hasKey (add_payload (.single "credits"
      (some (.str "oops")))).1 "credits" = true ∧
    errCount (increment env0 (.single "credits" (some (.str "oops")))
      none).events = 0 :=
  ⟨rfl, rfl, rfl, rfl⟩

/-- C7 amended: on a map argument, `increment` drops each non-reserved
entry whose value fails the best-effort numeric parse, reporting exactly
one validation error per dropped key; sibling parseable entries stay in
the `$add` payload with their original values, and the call still
dispatches (exactly one store hand-off or transport call) and returns
the truncated composed request.  (The scalar argument shape is not
validated: an unparseable amount is passed through unchecked.) -/
theorem claim_C7_amended (env : Env) (m : Obj) (cbid : Nat)
    (hnd : (keysOf m).Nodup) :
    (add_payload (.map m)).1 = m.filter incKeeps ∧
    errCount (increment env (.map m) (some (.ext cbid))).events =
      (m.filter incDrops).length ∧
    (transports (increment env (.map m)
        (some (.ext cbid))).events).length +
      (addQs (increment env (.map m)
        (some (.ext cbid))).events).length = 1 ∧
    (increment env (.map m) (some (.ext cbid))).ret =
      truncate (composedData env (.cincrement (.map m))) 255 := by
  have hmap := add_payload_map_eq m hnd
  have hbe : buildEvents env (.cincrement (.map m)) =
      (m.filter incDrops).map (fun _ => Event.logErr incErrMsg) := by
    rw [buildEvents, hmap]
  refine ⟨by rw [hmap], ?_, ?_, ?_⟩
  · rw [increment_as_run]
    cases hid : env.identify_called with
    | false =>
      rw [runMutation_unresolved env _ _ hid]
      have e12 : errCount (Event.addQ
          (actionKindOf (.cincrement (.map m)))
          (composedData env (.cincrement (.map m))) ::
          invokeCb [] (Cb.ext cbid) (deferredResp env) none) = 0 := rfl
      simp [errCount_append, hbe, errCount_logErr_map, e12,
        errCount_replicate]
    | true =>
      rw [runMutation_resolved env _ _ hid]
      have e1 : errCount [Event.transport
          (composedData env (.cincrement (.map m)))] = 0 := rfl
      simp [errCount_append, hbe, errCount_logErr_map, e1,
        errCount_replicate]
  · rw [increment_as_run]
    obtain ⟨ht, ha, hc, hp⟩ := buildEvents_pure env (.cincrement (.map m))
    cases hid : env.identify_called with
    | false =>
      rw [runMutation_unresolved env _ _ hid]
      have a12 : addQs (Event.addQ (actionKindOf (.cincrement (.map m)))
          (composedData env (.cincrement (.map m))) ::
          invokeCb [] (Cb.ext cbid) (deferredResp env) none) =
          [(actionKindOf (.cincrement (.map m)),
            composedData env (.cincrement (.map m)))] := rfl
      have t12 : transports (Event.addQ
          (actionKindOf (.cincrement (.map m)))
          (composedData env (.cincrement (.map m))) ::
          invokeCb [] (Cb.ext cbid) (deferredResp env) none) = [] := rfl
      simp [transports_append, addQs_append, ht, ha, t12, a12]
    | true =>
      rw [runMutation_resolved env _ _ hid]
      have t1 : transports [Event.transport
          (composedData env (.cincrement (.map m)))] =
          [composedData env (.cincrement (.map m))] := rfl
      have a1 : addQs [Event.transport
          (composedData env (.cincrement (.map m)))] = [] := rfl
      simp [transports_append, addQs_append, ht, ha, t1, a1]
  · rw [increment_as_run]
    cases hid : env.identify_called with
    | false => rw [runMutation_unresolved env _ _ hid]
    | true => rw [runMutation_resolved env _ _ hid]

/-- C3: each of the five non-APPEND queue flushes reads the store's
queue, pops it, dispatches it (UNSET as the key sequence) with a wrapping
continuation that captures the untransformed pre-flush copy; when the
transport result arrives, a network-failure result (`0`) re-enqueues
exactly that pre-flush payload, any other result re-enqueues nothing,
and either way the result is forwarded to the per-kind callback when one
was supplied. -/
theorem claim_C3 (a : String) (mth : ActionMethod) (tr : Bool)
    (hspec : (a, mth, tr) ∈ flushOneSpecs)
    (env : Env) (queue : Obj) (inner : Option Nat) (resp : CbResp)
    (hid : env.identify_called = true)
    (hq : queue ≠ [])
    (hclean : ∀ kv ∈ queue, kv.2.isUndef = false)
    (hnd : (keysOf queue).Nodup) :
    ∃ t,
      (_flush_one_queue env a mth inner tr queue).2 =
        [(Cb.flushWrapper a queue inner, t)] ∧
      addQs (_flush_one_queue env a mth inner tr queue).1 = [] ∧
      addQs (fireAll [] (_flush_one_queue env a mth inner tr queue).2
          [resp]) =
        (if resp = CbResp.num 0 then [(a, queue)] else []) ∧
      cbCalls (fireAll [] (_flush_one_queue env a mth inner tr queue).2
          [resp]) =
        (match inner with
         | some i => [(i, resp, some t)]
         | none => []) := by
  have hqe : extendObj [] queue = queue :=
    extendObj_nil_clean queue hnd hclean
  have hne : queue.isEmpty = false := by
    cases queue with
    | nil => exact absurd rfl hq
    | cons p l => rfl
  simp only [flushOneSpecs, List.mem_cons, List.not_mem_nil, or_false,
    Prod.mk.injEq] at hspec
  rcases hspec with ⟨rfl, rfl, rfl⟩ | ⟨rfl, rfl, rfl⟩ |
    ⟨rfl, rfl, rfl⟩ | ⟨rfl, rfl, rfl⟩ | ⟨rfl, rfl, rfl⟩
  · obtain ⟨hpend, haddq⟩ := flush_one_resolved env SET_ACTION .mset
      inner false queue (.cset (.map queue)) hid hqe hne rfl
    refine ⟨truncate (composedData env (.cset (.map queue))) 255,
      hpend, haddq, ?_, ?_⟩
    · rw [hpend]
      exact (flush_wrapper_fired SET_ACTION queue inner _ resp).1
    · rw [hpend]
      exact (flush_wrapper_fired SET_ACTION queue inner _ resp).2
  · obtain ⟨hpend, haddq⟩ := flush_one_resolved env SET_ONCE_ACTION
      .mset_once inner false queue (.cset_once (.map queue)) hid hqe hne
      rfl
    refine ⟨truncate (composedData env (.cset_once (.map queue))) 255,
      hpend, haddq, ?_, ?_⟩
    · rw [hpend]
      exact (flush_wrapper_fired SET_ONCE_ACTION queue inner _ resp).1
    · rw [hpend]
      exact (flush_wrapper_fired SET_ONCE_ACTION queue inner _ resp).2
  · obtain ⟨hpend, haddq⟩ := flush_one_resolved env UNSET_ACTION .munset
      inner true queue (.cunset (.arr (keysOf queue))) hid hqe hne rfl
    refine ⟨truncate (composedData env
      (.cunset (.arr (keysOf queue)))) 255, hpend, haddq, ?_, ?_⟩
    · rw [hpend]
      exact (flush_wrapper_fired UNSET_ACTION queue inner _ resp).1
    · rw [hpend]
      exact (flush_wrapper_fired UNSET_ACTION queue inner _ resp).2
  · obtain ⟨hpend, haddq⟩ := flush_one_resolved env ADD_ACTION
      .mincrement inner false queue (.cincrement (.map queue)) hid hqe
      hne rfl
    refine ⟨truncate (composedData env (.cincrement (.map queue))) 255,
      hpend, haddq, ?_, ?_⟩
    · rw [hpend]
      exact (flush_wrapper_fired ADD_ACTION queue inner _ resp).1
    · rw [hpend]
      exact (flush_wrapper_fired ADD_ACTION queue inner _ resp).2
  · obtain ⟨hpend, haddq⟩ := flush_one_resolved env UNION_ACTION .munion
      inner false queue (.cunion (.map queue)) hid hqe hne rfl
    refine ⟨truncate (composedData env (.cunion (.map queue))) 255,
      hpend, haddq, ?_, ?_⟩
    · rw [hpend]
      exact (flush_wrapper_fired UNION_ACTION queue inner _ resp).1
    · rw [hpend]
      exact (flush_wrapper_fired UNION_ACTION queue inner _ resp).2

/-- Witness for C3: a flushed UNSET queue whose dispatch fails. -/
theorem claim_C3_witness :
    (UNSET_ACTION, ActionMethod.munset, true) ∈ flushOneSpecs ∧
    envR.identify_called = true ∧
    ([("p", Value.num 1), ("q", Value.num 2)] : Obj) ≠ [] ∧
    (∀ kv ∈ ([("p", Value.num 1), ("q", Value.num 2)] : Obj),
      kv.2.isUndef = false) ∧
    (keysOf [("p", Value.num 1), ("q", Value.num 2)]).Nodup ∧
    (∃ t,
      (_flush_one_queue envR UNSET_ACTION .munset (some 3) true
        [("p", Value.num 1), ("q", Value.num 2)]).2 =
        [(Cb.flushWrapper UNSET_ACTION
          [("p", Value.num 1), ("q", Value.num 2)] (some 3), t)] ∧
      addQs (_flush_one_queue envR UNSET_ACTION .munset (some 3) true
        [("p", Value.num 1), ("q", Value.num 2)]).1 = [] ∧
      addQs (fireAll [] (_flush_one_queue envR UNSET_ACTION .munset
          (some 3) true [("p", Value.num 1), ("q", Value.num 2)]).2
          [CbResp.num 0]) =
        (if (CbResp.num 0) = CbResp.num 0 then
          [(UNSET_ACTION, [("p", Value.num 1), ("q", Value.num 2)])]
        else []) ∧
      cbCalls (fireAll [] (_flush_one_queue envR UNSET_ACTION .munset
          (some 3) true [("p", Value.num 1), ("q", Value.num 2)]).2
          [CbResp.num 0]) =
        (match (some 3 : Option Nat) with
         | some i => [(i, CbResp.num 0, some t)]
         | none => [])) :=
  ⟨by decide, rfl, by simp, by decide, by decide,
    claim_C3 UNSET_ACTION .munset true (by decide) envR
      [("p", Value.num 1), ("q", Value.num 2)] (some 3) (CbResp.num 0)
      rfl (by simp) (by decide) (by decide)⟩

/-- Witness for the amended C7 at the design document's own example
`increment(a: 1, b: 'oops')`. -/
theorem claim_C7_amended_witness :
    (keysOf [("a", Value.num 1), ("b", Value.str "oops")]).Nodup ∧
    ((add_payload (.map [("a", Value.num 1),
        ("b", Value.str "oops")])).1 =
      [("a", Value.num 1), ("b", Value.str "oops")].filter incKeeps ∧
    errCount (increment env0 (.map [("a", Value.num 1),
        ("b", Value.str "oops")]) (some (.ext 2))).events =
      ([("a", Value.num 1),
        ("b", Value.str "oops")].filter incDrops).length ∧
    (transports (increment env0 (.map [("a", Value.num 1),
        ("b", Value.str "oops")]) (some (.ext 2))).events).length +
      (addQs (increment env0 (.map [("a", Value.num 1),
        ("b", Value.str "oops")]) (some (.ext 2))).events).length = 1 ∧
    (increment env0 (.map [("a", Value.num 1),
        ("b", Value.str "oops")]) (some (.ext 2))).ret =
      truncate (composedData env0 (.cincrement (.map [("a", Value.num 1),
        ("b", Value.str "oops")]))) 255) :=
  ⟨by decide, claim_C7_amended env0
    [("a", Value.num 1), ("b", Value.str "oops")] 2 (by decide)⟩

/-- C4, the code-level bug: flushing the `$append` queue `[qA, qB]` pops
and dispatches tail-to-head (`qB` then `qA`) and persists once — but the
shared failure continuation reads the loop variable `$append_item`, which
after the synchronous loop holds the last-popped entry `qA`.  Transport
outcomes arrive only after `_flush` returns, so a failure result for the
dispatch of `qB` re-enqueues `qA`, not the specific popped entry `qB`
that failed. -/
theorem claim_C4_bug :
    transports (_flush envFl none none (some 7) none none none).events =
      [withIds envFl [(APPEND_ACTION, .obj qB)],
       withIds envFl [(APPEND_ACTION, .obj qA)]] ∧
    persistCount
      (_flush envFl none none (some 7) none none none).events = 1 ∧
    (_flush envFl none none (some 7) none none none).cell = qA ∧
    addQs (fireAll (_flush envFl none none (some 7) none none none).cell
      (_flush envFl none none (some 7) none none none).pending
      [CbResp.num 0, CbResp.num 1]) = [(APPEND_ACTION, qA)] ∧
    addQs (fireAll (_flush envFl none none (some 7) none none none).cell
      (_flush envFl none none (some 7) none none none).pending
      [CbResp.num 0, CbResp.num 1]) ≠ [(APPEND_ACTION, qB)] ∧
    qA ≠ qB := by
  have heq : addQs (fireAll
      (_flush envFl none none (some 7) none none none).cell
      (_flush envFl none none (some 7) none none none).pending
      [CbResp.num 0, CbResp.num 1]) = [(APPEND_ACTION, qA)] := rfl
  refine ⟨rfl, rfl, rfl, heq, ?_, by simp [qA, qB]⟩
  rw [heq]
  simp [qA, qB]

/-- Counterexample to C10 as stated: when the caller's `properties` map
itself carries an `$amount` key, `track_charge` lets the caller's value
win (the singleton is the extension base), so it does not behave as
`append` on "properties extended with `$amount` bound to the amount". -/
theorem claim_C10_cex :
    (track_charge envR (.num 50) [("$amount", .num 99)] none).1 =
      some [(APPEND_ACTION,
          .obj [("$transactions", .obj [("$amount", .num 99)])]),
        ("$token", .str "TOK"), ("$distinct_id", .str "DID")] ∧
    (append envR (.single "$transactions"
        (.obj (extendObj [("$amount", .num 99)] [("$amount", .num 50)])))
        none).ret =
      [(APPEND_ACTION,
          .obj [("$transactions", .obj [("$amount", .num 50)])]),
        ("$token", .str "TOK"), ("$distinct_id", .str "DID")] ∧
    (track_charge envR (.num 50) [("$amount", .num 99)] none).1 ≠
      some ((append envR (.single "$transactions"
        (.obj (extendObj [("$amount", .num 99)] [("$amount", .num 50)])))
        none).ret) := by
  refine ⟨rfl, rfl, ?_⟩
  intro h
  have h2 : (some [(APPEND_ACTION,
        .obj [("$transactions", .obj [("$amount", .num 99)])]),
      ("$token", .str "TOK"), ("$distinct_id", .str "DID")] :
        Option Obj) =
      some [(APPEND_ACTION,
          .obj [("$transactions", .obj [("$amount", .num 50)])]),
        ("$token", .str "TOK"), ("$distinct_id", .str "DID")] :=
    calc (some [(APPEND_ACTION,
          .obj [("$transactions", .obj [("$amount", .num 99)])]),
        ("$token", .str "TOK"), ("$distinct_id", .str "DID")] :
          Option Obj)
        = (track_charge envR (.num 50) [("$amount", .num 99)] none).1 :=
          rfl
      _ = some ((append envR (.single "$transactions"
            (.obj (extendObj [("$amount", .num 99)]
              [("$amount", .num 50)]))) none).ret) := h
      _ = some [(APPEND_ACTION,
            .obj [("$transactions", .obj [("$amount", .num 50)])]),
          ("$token", .str "TOK"), ("$distinct_id", .str "DID")] := rfl
  simp at h2

/-- C10 amended: `track_charge` with an amount that is neither a number
nor parseable reports one validation error, performs no dispatch, and
returns `undefined`; with a usable amount it behaves exactly as
`append` on `$transactions` with the singleton `$amount` map extended
with the caller's properties (the caller's properties take precedence on
a conflicting `$amount` key). -/
theorem claim_C10_amended (env : Env) (amount : Value) (props : Obj)
    (cb : Option Cb) :
    track_charge env amount props cb =
      (match chargeAmount amount with
       | none => (none,
           [Event.logErr "Invalid value passed to mixpanel.people.track_charge - must be a number"],
           [])
       | some a =>
         (some (append env (.single "$transactions"
             (.obj (extendObj [("$amount", a)] props))) cb).ret,
          (append env (.single "$transactions"
            (.obj (extendObj [("$amount", a)] props))) cb).events,
          (append env (.single "$transactions"
            (.obj (extendObj [("$amount", a)] props))) cb).pending)) ∧
    (chargeAmount amount = none →
      track_charge env amount props cb =
        (none,
         [Event.logErr "Invalid value passed to mixpanel.people.track_charge - must be a number"],
         [])) := by
  constructor
  · cases hca : chargeAmount amount <;> simp [track_charge, hca]
  · intro h
    simp [track_charge, h]

/-- Witness for the amended C10: an unparseable amount is dropped with
one error and no dispatch; a numeric amount delegates to `append`. -/
theorem claim_C10_amended_witness :
    chargeAmount (.str "oops") = none ∧
    track_charge env0 (.str "oops") [] none =
      (none,
       [Event.logErr "Invalid value passed to mixpanel.people.track_charge - must be a number"],
       []) ∧
    track_charge envR (.num 30) [("$time", .str "t")] none =
      (some (append envR (.single "$transactions"
          (.obj (extendObj [("$amount", .num 30)]
            [("$time", .str "t")]))) none).ret,
       (append envR (.single "$transactions"
         (.obj (extendObj [("$amount", .num 30)]
           [("$time", .str "t")]))) none).events,
       (append envR (.single "$transactions"
         (.obj (extendObj [("$amount", .num 30)]
           [("$time", .str "t")]))) none).pending) :=
  ⟨rfl, (claim_C10_amended env0 (.str "oops") [] none).2 rfl,
    (claim_C10_amended envR (.num 30) [("$time", .str "t")] none).1⟩

end MixpanelPeople
